import Mathlib

/-!
Verification of the HL7-v2 → FHIR conversion service
(`src/hl7ToFhirService.js`) against its natural-language specification.

The source is JavaScript.  A parsed HL7 field (the values stored under
`parsed.fieldN` by the external `hl7-parser`) is either `null`/`undefined`,
a string, or a (possibly nested) array of such values.  We embed that
value universe as the inductive type `JVal` below; `JVal.nul` stands for
both JS `null` and `undefined` (the code never distinguishes them on the
paths it takes: absent object keys read as `undefined`, and the helpers
treat `null`/`undefined` identically).

Strings are ASCII in HL7 messages, so JS UTF-16 `length`/`substring`
coincide with Lean character counts; the JS string operations used by the
source (`trim`, `substring`, `split`, `||` defaulting, template-literal
stringification) are embedded explicitly as `js*` helpers on `List Char`
so every definition is kernel-computable.

Where a JS expression would throw a `TypeError` (e.g. calling `.trim()`
on an array), the embedding returns `Except.error ()`; the claims about
produced resources are stated conditionally on an `.ok` result, exactly
as the JS claims are vacuous when the conversion throws.
-/

/-- A JavaScript value as it appears in a parsed HL7 field: `null`
    (or `undefined`), a string, or an array of such values. -/
inductive JVal where
  | nul : JVal
  | str : String → JVal
  | arr : List JVal → JVal

/-- JS truthiness for the values a field can hold: `null`/`undefined` and
    `''` are falsy, every other string and every array (even `[]`) is truthy. -/
def jsTruthy : JVal → Bool
  | .nul => false
  | .str s => s ≠ ""
  | .arr _ => true

/-- `Array.isArray`. -/
def JVal.isArr : JVal → Bool
  | .arr _ => true
  | _ => false

/-- `v === null \/ v === undefined` (the two are identified in the model). -/
def JVal.isNul : JVal → Bool
  | .nul => true
  | _ => false

/-- `v === "lit"` — strict string equality against a string literal. -/
def jvalStrEq : JVal → String → Bool
  | .str s, t => s = t
  | _, _ => false

mutual
/-- JS stringification of a value appearing inside an array being joined:
    `String([x, y]) = join(',')`, with `null`/`undefined` elements
    rendering as the empty string. -/
def jsToStr : JVal → String
  | .nul => ""
  | .str s => s
  | .arr xs => jsToStrList xs

/-- `Array.prototype.join(',')` over the model values. -/
def jsToStrList : List JVal → String
  | [] => ""
  | [x] => jsToStr x
  | x :: y :: xs => jsToStr x ++ "," ++ jsToStrList (y :: xs)
end

/-- Template-literal interpolation of a top-level value:
    like `jsToStr` except `null` renders as the string `"null"`. -/
def jsTemplate : JVal → String
  | .nul => "null"
  | .str s => s
  | .arr xs => jsToStrList xs

/-- `a || b` for model values (JS logical-or, returning the first
    truthy operand). -/
def jsOrJ (a b : JVal) : JVal := if jsTruthy a then a else b

/-- `a || b` where both sides are strings and JS `undefined` is encoded
    as `""` (both are falsy, and the code only reads the result as a
    string). -/
def jsOrS (a b : String) : String := if a = "" then b else a

/-- Embeds `getFieldValue(field)` (source lines 35-48; the optional
    `index` argument is never passed at any call site, so it is `0`):
    `null`/`undefined`/`''` give `null`; for an array, take element `0`;
    if that element is itself an array return ITS element `0` unchanged
    (possibly `''` or a deeper array), else return the element with `''`
    collapsed to `null` (`value || null`). -/
def getFieldValue : JVal → JVal
  | .nul => .nul
  | .str s => if s = "" then .nul else .str s
  | .arr xs =>
    match xs with
    | [] => .nul
    | v :: _ =>
      match v with
      | .arr ys =>
        match ys with
        | [] => .nul
        | w :: _ => w
      | .nul => .nul
      | .str s => if s = "" then .nul else .str s

/-- Embeds `getFieldValues(field)` (source lines 51-67): an array whose
    first element is itself an array is a repetition list and is returned
    as-is; any other non-empty value is a single logical instance. -/
def getFieldValues : JVal → List JVal
  | .nul => []
  | .str s => if s = "" then [] else [.str s]
  | .arr xs =>
    match xs with
    | [] => []
    | v :: _ =>
      match v with
      | .arr _ => xs
      | _ => [.arr xs]

/-- The inner test of `hasFieldValue`'s `some`: a sub-item counts when it
    is not `''`/`null`/`undefined` (an array sub-item counts). -/
def leafHasValue : JVal → Bool
  | .nul => false
  | .str s => s ≠ ""
  | .arr _ => true

/-- Embeds `hasFieldValue(field)` (source lines 70-84). -/
def hasFieldValue : JVal → Bool
  | .nul => false
  | .str s => s ≠ ""
  | .arr xs =>
    xs.any fun item =>
      match item with
      | .arr ys => !ys.isEmpty && ys.any leafHasValue
      | .nul => false
      | .str s => s ≠ ""

/-- The whitespace class removed by JS `String.prototype.trim` (restricted
    to the ASCII range occurring in HL7 messages). -/
def jsWhitespaceChar (c : Char) : Bool :=
  c = ' ' || c = '\t' || c = '\n' || c = '\x0d' || c = '\x0b' || c = '\x0c'

/-- JS `s.trim()`. -/
def jsTrim (s : String) : String :=
  String.mk (((s.data.dropWhile jsWhitespaceChar).reverse.dropWhile jsWhitespaceChar).reverse)

/-- JS `s.substring(a, b)` for `a ≤ b`: the characters in positions
    `[a, min b (length s))`. -/
def jsSubstring (s : String) (a b : Nat) : String :=
  String.mk ((s.data.drop a).take (b - a))

/-- JS `s.split(sep)` on a one-character separator, over `List Char`. -/
def jsSplitList (sep : Char) : List Char → List (List Char)
  | [] => [[]]
  | c :: rest =>
    let r := jsSplitList sep rest
    if c = sep then [] :: r
    else
      match r with
      | [] => [[c]]
      | g :: gs => (c :: g) :: gs

/-- JS `s.split(sep)`: `''.split(sep) = ['']`, separators at the ends
    produce empty pieces. -/
def jsSplit (sep : Char) (s : String) : List String :=
  (jsSplitList sep s.data).map String.mk

/-- Embeds `convertHL7DateTimeToFHIR` (source lines 91-116): absent for
    empty/whitespace-only input and for trimmed length < 8; `YYYY-MM-DD`
    from positions 0-8; when trimmed length ≥ 14 a `THH:MM:SS` suffix
    from positions 8-14.  The `|| '01'` / `|| '00'` defaults of the
    source are kept (they can only fire if the substring is empty). -/
def convertHL7DateTimeToFHIR (s : String) : Option String :=
  if jsTrim s = "" then none
  else
    let cleaned := jsTrim s
    if 8 ≤ cleaned.length then
      let year := jsSubstring cleaned 0 4
      let month := jsOrS (jsSubstring cleaned 4 6) "01"
      let day := jsOrS (jsSubstring cleaned 6 8) "01"
      let base := year ++ "-" ++ month ++ "-" ++ day
      if 14 ≤ cleaned.length then
        let hour := jsOrS (jsSubstring cleaned 8 10) "00"
        let minute := jsOrS (jsSubstring cleaned 10 12) "00"
        let second := jsOrS (jsSubstring cleaned 12 14) "00"
        some (base ++ "T" ++ hour ++ ":" ++ minute ++ ":" ++ second)
      else some base
    else none

/-- `convertHL7DateTimeToFHIR(v)` applied to an extracted field value that
    is not an array (the array case throws in JS and is guarded separately
    at every call site of this helper): `null` input yields `null`. -/
def hl7DTofJVal : JVal → Option String
  | .str s => convertHL7DateTimeToFHIR s
  | _ => none

lemma jsSubstring_data (s : String) (a b : Nat) :
    (jsSubstring s a b).data = (s.data.drop a).take (b - a) := rfl

lemma jsSubstring_ne_empty (s : String) (a b : Nat) (hab : a < b) (ha : a < s.length) :
    jsSubstring s a b ≠ "" := by
  intro h
  have hd : ((s.data.drop a).take (b - a)).length = 0 := by
    have := congrArg String.data h
    rw [jsSubstring_data] at this
    simp [this]
  rw [List.length_take, List.length_drop] at hd
  have hl : a < s.data.length := ha
  omega

/-- C6: for every string `s`, writing `t` for its trimmed form: if
    `t.length < 8` the normalizer is absent; if `8 ≤ t.length < 14` it
    returns exactly `YYYY-MM-DD` built from positions 0-8 of `t`; if
    `14 ≤ t.length` it additionally appends `THH:MM:SS` built from
    positions 8-14.  The `'01'` defaults never fire (the substrings are
    non-empty once `t.length ≥ 8`), and the output carries no timezone
    suffix beyond the exact format shown. -/
theorem datetime_normalizer_cases (s : String) :
    ((jsTrim s).length < 8 → convertHL7DateTimeToFHIR s = none)
    ∧ (8 ≤ (jsTrim s).length → (jsTrim s).length < 14 →
        convertHL7DateTimeToFHIR s =
          some (jsSubstring (jsTrim s) 0 4 ++ "-" ++ jsSubstring (jsTrim s) 4 6
                ++ "-" ++ jsSubstring (jsTrim s) 6 8))
    ∧ (14 ≤ (jsTrim s).length →
        convertHL7DateTimeToFHIR s =
          some (jsSubstring (jsTrim s) 0 4 ++ "-" ++ jsSubstring (jsTrim s) 4 6
                ++ "-" ++ jsSubstring (jsTrim s) 6 8
                ++ "T" ++ jsSubstring (jsTrim s) 8 10 ++ ":" ++ jsSubstring (jsTrim s) 10 12
                ++ ":" ++ jsSubstring (jsTrim s) 12 14)) := by
  by_cases hempty : jsTrim s = ""
  · have hlen : (jsTrim s).length = 0 := by rw [hempty]; rfl
    refine ⟨fun _ => ?_, fun h8 _ => ?_, fun h14 => ?_⟩
    · simp [convertHL7DateTimeToFHIR, hempty]
    · omega
    · omega
  · refine ⟨fun hlt => ?_, fun h8 h14 => ?_, fun h14 => ?_⟩
    · simp only [convertHL7DateTimeToFHIR, if_neg hempty]
      rw [if_neg (by omega)]
    · have hm := jsSubstring_ne_empty (jsTrim s) 4 6 (by omega) (by omega)
      have hd := jsSubstring_ne_empty (jsTrim s) 6 8 (by omega) (by omega)
      simp only [convertHL7DateTimeToFHIR, if_neg hempty]
      rw [if_pos h8, if_neg (by omega)]
      simp [jsOrS, hm, hd]
    · have hm := jsSubstring_ne_empty (jsTrim s) 4 6 (by omega) (by omega)
      have hd := jsSubstring_ne_empty (jsTrim s) 6 8 (by omega) (by omega)
      have hh := jsSubstring_ne_empty (jsTrim s) 8 10 (by omega) (by omega)
      have hmi := jsSubstring_ne_empty (jsTrim s) 10 12 (by omega) (by omega)
      have hse := jsSubstring_ne_empty (jsTrim s) 12 14 (by omega) (by omega)
      simp only [convertHL7DateTimeToFHIR, if_neg hempty]
      rw [if_pos (by omega : 8 ≤ (jsTrim s).length), if_pos h14]
      simp [jsOrS, hm, hd, hh, hmi, hse]

/-- Witness for `datetime_normalizer_cases` at a concrete 14-digit input. -/
theorem datetime_normalizer_cases_witness :
    14 ≤ (jsTrim "20240101120000").length
    ∧ convertHL7DateTimeToFHIR "20240101120000" = some "2024-01-01T12:00:00" := by
  refine ⟨by decide, ?_⟩
  have h := (datetime_normalizer_cases "20240101120000").2.2 (by decide)
  rw [h]
  decide

/-- A parsed segment body: the JS object `{field1: ..., field2: ...}`,
    read by numeric field position; absent keys read as `undefined`. -/
def ParsedSeg : Type := Nat → JVal

/-- A segment as delivered by the external parser (input contract):
    `{segmentType, parsed}`, where a falsy `parsed` marks an unparseable
    segment and is modelled as `none`. -/
structure Segment where
  segmentType : String
  parsed : Option ParsedSeg

/-- The projection of a FHIR resource object onto the parts the claims
    are about: its `resourceType`, its `id`, the patient reference it
    carries (`subject.reference` / `patient.reference` /
    `beneficiary.reference`), the Encounter `status`, and the Patient
    `deceasedDateTime` / `deceasedBoolean` pair.  All other resource
    content is elided; none of it feeds back into these fields in the
    source. -/
structure Resource where
  resourceType : String
  id : String
  patientRef : Option String := none
  status : Option String := none
  deceasedDateTime : Option String := none
  deceasedBoolean : Option Bool := none
deriving DecidableEq

/-- `convertHL7NameToFHIR(v)` throws a TypeError iff `v` is an array whose
    element 1 is itself an array (`components[1].split(' ')` on an array);
    every other input returns normally. -/
def nameCrashes : JVal → Bool
  | .arr xs =>
    match xs.get? 1 with
    | some (.arr _) => true
    | _ => false
  | _ => false

/-- `convertHL7AddressToFHIR(v)` throws a TypeError iff `v` is an array
    whose element 0 is an array (`components[0].split('&')`) or whose
    element 5 is an array (`components[5].toUpperCase()`). -/
def addrCrashes : JVal → Bool
  | .arr xs =>
    (match xs.get? 0 with
     | some (.arr _) => true
     | _ => false)
    ||
    (match xs.get? 5 with
     | some (.arr _) => true
     | _ => false)
  | _ => false

/-- Embeds the event-code computation of `convertMSHToMessageHeader`
    (source lines 462-471): guarded by truthiness of field 9 and of its
    extracted value; the extracted value is `split('^')` when it is a
    string, used as the component list directly when it is an array; the
    code is `parts[1] || parts[0] || 'ADT'`.  `none` means the `event`
    object is left without a `code`. -/
def mshEventCode (field9 : JVal) : Option JVal :=
  if jsTruthy field9 then
    match getFieldValue field9 with
    | .nul => none
    | .str s =>
      if s = "" then none
      else
        let parts := jsSplit '^' s
        some (.str (jsOrS (parts.getD 1 "") (jsOrS (parts.getD 0 "") "ADT")))
    | .arr ys => some (jsOrJ (ys.getD 1 .nul) (jsOrJ (ys.getD 0 .nul) (.str "ADT")))
  else none

/-- Embeds `convertMSHToMessageHeader` (source lines 452-522) restricted
    to the modelled projection: the field-7 timestamp conversion is the
    one expression on the MSH path that can throw (date conversion of an
    array-shaped extracted value); the `id` starts as `messageheader-1`
    and is overwritten from field 10 via a template literal. -/
def convertMSHToMessageHeader (p : ParsedSeg) : Except Unit Resource :=
  if jsTruthy (p 7) && (getFieldValue (p 7)).isArr then .error ()
  else .ok
    { resourceType := "MessageHeader"
      id := if jsTruthy (p 10) then "message-" ++ jsTemplate (getFieldValue (p 10))
            else "messageheader-1" }

/-- Embeds `convertPIDToPatient` (source lines 529-771) restricted to the
    modelled projection.  The guards reproduce, in source order, every
    expression of the mapper that can throw a TypeError: a name repetition
    of field 5 with an array in component 1, an array-shaped extracted
    value of the date fields 7 and 29, an array-shaped extracted sex value
    of field 8 (`.toUpperCase()`), and an address repetition of field 11
    with an array in component 0 or 5.  `deceasedDateTime` is set from
    field 29 when it normalizes; `deceasedBoolean := true` only when the
    extracted field 30 is exactly `'Y'` and no death date was set. -/
def convertPIDToPatient (p : ParsedSeg) : Except Unit Resource :=
  if hasFieldValue (p 5) && (getFieldValues (p 5)).any nameCrashes then .error ()
  else if hasFieldValue (p 7) && (getFieldValue (p 7)).isArr then .error ()
  else if hasFieldValue (p 8) && (getFieldValue (p 8)).isArr then .error ()
  else if hasFieldValue (p 11) && (getFieldValues (p 11)).any addrCrashes then .error ()
  else if hasFieldValue (p 29) && (getFieldValue (p 29)).isArr then .error ()
  else
    let dd := if hasFieldValue (p 29) then hl7DTofJVal (getFieldValue (p 29)) else none
    .ok
      { resourceType := "Patient"
        id := "patient-1"
        deceasedDateTime := dd
        deceasedBoolean :=
          if hasFieldValue (p 30) && jvalStrEq (getFieldValue (p 30)) "Y" && dd.isNone
          then some true else none }

/-- Embeds `convertPV1ToEncounter` (source lines 779-999) restricted to
    the modelled projection.  The guards reproduce, in source order, every
    expression of the mapper that can throw: a financial-class occurrence
    of field 20 whose extracted value is `null` (`fcValue.split('^')` on
    `null`), and an array-shaped extracted value of the date fields 44
    and 45.  `status` starts as `in-progress` and is set to `finished`
    exactly when the field-45 discharge date/time normalizes. -/
def convertPV1ToEncounter (patientId : String) (p : ParsedSeg) : Except Unit Resource :=
  if jsTruthy (p 20) && (getFieldValues (p 20)).any (fun fc => (getFieldValue fc).isNul)
  then .error ()
  else if jsTruthy (p 44) && (getFieldValue (p 44)).isArr then .error ()
  else if jsTruthy (p 45) && (getFieldValue (p 45)).isArr then .error ()
  else
    let discharge := if jsTruthy (p 45) then hl7DTofJVal (getFieldValue (p 45)) else none
    .ok
      { resourceType := "Encounter"
        id := "encounter-1"
        status := some (if discharge.isSome then "finished" else "in-progress")
        patientRef := some ("Patient/" ++ patientId) }

/-- Embeds `convertNK1ToRelatedPerson` (source lines 1007-1079) restricted
    to the modelled projection; fields 2 and 4 are passed to the name and
    address normalizers unextracted. -/
def convertNK1ToRelatedPerson (patientId : String) (p : ParsedSeg) : Except Unit Resource :=
  if jsTruthy (p 2) && nameCrashes (p 2) then .error ()
  else if jsTruthy (p 4) && addrCrashes (p 4) then .error ()
  else .ok
    { resourceType := "RelatedPerson"
      id := "relatedperson-1"
      patientRef := some ("Patient/" ++ patientId) }

/-- `field1 || '1'` interpolated into a template literal: the raw field-1
    value stringified (arrays join on `,`), defaulting to `"1"` when the
    field is falsy. -/
def idIndexPart (field1 : JVal) : String :=
  if jsTruthy field1 then jsToStr field1 else "1"

/-- Embeds `convertAL1ToAllergyIntolerance` (source lines 1087-1199)
    restricted to the modelled projection; field 6 is the only throwing
    site (date conversion of an array-shaped extracted value). -/
def convertAL1ToAllergyIntolerance (patientId : String) (p : ParsedSeg) : Except Unit Resource :=
  if jsTruthy (p 6) && (getFieldValue (p 6)).isArr then .error ()
  else .ok
    { resourceType := "AllergyIntolerance"
      id := "allergy-" ++ idIndexPart (p 1)
      patientRef := some ("Patient/" ++ patientId) }

/-- Embeds `convertDG1ToCondition` (source lines 1208-1298) restricted to
    the modelled projection; field 5 is the only throwing site. -/
def convertDG1ToCondition (patientId : String) (p : ParsedSeg) : Except Unit Resource :=
  if jsTruthy (p 5) && (getFieldValue (p 5)).isArr then .error ()
  else .ok
    { resourceType := "Condition"
      id := "condition-" ++ idIndexPart (p 1)
      patientRef := some ("Patient/" ++ patientId) }

/-- Embeds `convertPR1ToProcedure` (source lines 1307-1379) restricted to
    the modelled projection; field 5 is the only throwing site. -/
def convertPR1ToProcedure (patientId : String) (p : ParsedSeg) : Except Unit Resource :=
  if jsTruthy (p 5) && (getFieldValue (p 5)).isArr then .error ()
  else .ok
    { resourceType := "Procedure"
      id := "procedure-" ++ idIndexPart (p 1)
      patientRef := some ("Patient/" ++ patientId) }

/-- Embeds `convertIN1ToCoverage` (source lines 1388-1478) restricted to
    the modelled projection.  Throwing sites in source order: field 3
    writing `payor[0].identifier` when field 4 was falsy (so `payor` is
    empty and `payor[0]` is `undefined`), the field-16 name conversion,
    and the date conversions of fields 12 and 13.  The `in2Segment`
    argument of the source is never read and is omitted. -/
def convertIN1ToCoverage (patientId : String) (p : ParsedSeg) : Except Unit Resource :=
  if !jsTruthy (p 4) && jsTruthy (p 3) && jsTruthy (getFieldValue (p 3)) then .error ()
  else if jsTruthy (p 16) && nameCrashes (p 16) then .error ()
  else if jsTruthy (p 12) && (getFieldValue (p 12)).isArr then .error ()
  else if jsTruthy (p 13) && (getFieldValue (p 13)).isArr then .error ()
  else .ok
    { resourceType := "Coverage"
      id := "coverage-" ++ idIndexPart (p 1)
      patientRef := some ("Patient/" ++ patientId) }

/-- Embeds `convertOBXToObservation` (source lines 1487-1718) restricted
    to the modelled projection.  Throwing sites: in the value dispatch on
    `valueType = (field2 value or null) || 'ST'`, the `SN` and `CE` arms
    split the extracted field-5 value and throw when it is `null`, and
    the `DT`/`TM`/`TS` arms throw when it is an array; the field-14 date
    conversion throws on an array-shaped extracted value. -/
def convertOBXToObservation (patientId : String) (p : ParsedSeg) : Except Unit Resource :=
  if hasFieldValue (p 5) &&
      (let value := getFieldValue (p 5)
       let valueType := jsOrJ (if hasFieldValue (p 2) then getFieldValue (p 2) else .nul)
                              (.str "ST")
       ((jvalStrEq valueType "SN" || jvalStrEq valueType "CE") && value.isNul)
       || ((jvalStrEq valueType "DT" || jvalStrEq valueType "TM" || jvalStrEq valueType "TS")
           && value.isArr))
  then .error ()
  else if hasFieldValue (p 14) && (getFieldValue (p 14)).isArr then .error ()
  else .ok
    { resourceType := "Observation"
      id := "observation-" ++ idIndexPart (p 1)
      patientRef := some ("Patient/" ++ patientId) }

/-- One `bundle.entry` element: `{fullUrl, resource}`. -/
structure BundleEntry where
  fullUrl : String
  resource : Resource
deriving DecidableEq

/-- The FHIR Bundle: `{resourceType:'Bundle', type:'collection',
    timestamp, entry}`. -/
structure Bundle where
  resourceType : String
  bundleType : String
  timestamp : String
  entry : List BundleEntry
deriving DecidableEq

/-- Every push site of the assembler builds the entry the same way:
    `{fullUrl: urn:uuid:<resource.id>, resource}`. -/
def mkEntry (r : Resource) : BundleEntry :=
  { fullUrl := "urn:uuid:" ++ r.id, resource := r }

/-- The post-construction id overwrite `resource.id = ...` used for
    Encounter, RelatedPerson and Coverage occurrences. -/
def withId (id : String) (r : Resource) : Resource := { r with id := id }

/-- One `forEach((seg, index) => if (seg.parsed) ...)` loop of the
    assembler: the index counts every discovered occurrence (parsed or
    not), only parsed occurrences emit an entry, and a mapper TypeError
    aborts the whole conversion. -/
def convSegs (f : Nat → ParsedSeg → Except Unit Resource) :
    List Segment → Nat → Except Unit (List BundleEntry)
  | [], _ => .ok []
  | s :: rest, i =>
    match s.parsed with
    | some p =>
      match f i p with
      | .error e => .error e
      | .ok r =>
        match convSegs f rest (i + 1) with
        | .error e => .error e
        | .ok es => .ok (mkEntry r :: es)
    | none => convSegs f rest (i + 1)

/-- Sequential concatenation of two assembler steps, propagating the
    first TypeError. -/
def exApp (a b : Except Unit (List BundleEntry)) : Except Unit (List BundleEntry) :=
  match a with
  | .error e => .error e
  | .ok xs =>
    match b with
    | .error e => .error e
    | .ok ys => .ok (xs ++ ys)

/-- The single-occurrence step for MSH/PID: `find` the first segment of
    the kind and convert it when it carries a parsed body. -/
def singleBlock (ty : String) (conv : ParsedSeg → Except Unit Resource)
    (segs : List Segment) : Except Unit (List BundleEntry) :=
  match segs.find? (fun s => s.segmentType == ty) with
  | some s =>
    match s.parsed with
    | some p =>
      match conv p with
      | .error e => .error e
      | .ok r => .ok [mkEntry r]
    | none => .ok []
  | none => .ok []

/-- The PV1 per-occurrence mapper with the `encounter-<index+1>` id
    overwrite (source lines 1775-1785). -/
def encMapper (i : Nat) (p : ParsedSeg) : Except Unit Resource :=
  match convertPV1ToEncounter "patient-1" p with
  | .error e => .error e
  | .ok r => .ok (withId ("encounter-" ++ toString (i + 1)) r)

/-- The NK1 per-occurrence mapper with the `relatedperson-<index+1>` id
    overwrite (source lines 1788-1797). -/
def nk1Mapper (i : Nat) (p : ParsedSeg) : Except Unit Resource :=
  match convertNK1ToRelatedPerson "patient-1" p with
  | .error e => .error e
  | .ok r => .ok (withId ("relatedperson-" ++ toString (i + 1)) r)

/-- The IN1 per-occurrence mapper with the `coverage-<index+1>` id
    overwrite (source lines 1833-1846); the IN2 lookup of the source is
    dead (the coverage mapper never reads its IN2 argument). -/
def in1Mapper (i : Nat) (p : ParsedSeg) : Except Unit Resource :=
  match convertIN1ToCoverage "patient-1" p with
  | .error e => .error e
  | .ok r => .ok (withId ("coverage-" ++ toString (i + 1)) r)

def mshBlock (segs : List Segment) : Except Unit (List BundleEntry) :=
  singleBlock "MSH" convertMSHToMessageHeader segs

def pidBlock (segs : List Segment) : Except Unit (List BundleEntry) :=
  singleBlock "PID" convertPIDToPatient segs

def encBlock (segs : List Segment) : Except Unit (List BundleEntry) :=
  convSegs encMapper (segs.filter (fun s => s.segmentType == "PV1")) 0

def nk1Block (segs : List Segment) : Except Unit (List BundleEntry) :=
  convSegs nk1Mapper (segs.filter (fun s => s.segmentType == "NK1")) 0

def al1Block (segs : List Segment) : Except Unit (List BundleEntry) :=
  convSegs (fun _ p => convertAL1ToAllergyIntolerance "patient-1" p)
    (segs.filter (fun s => s.segmentType == "AL1")) 0

def dg1Block (segs : List Segment) : Except Unit (List BundleEntry) :=
  convSegs (fun _ p => convertDG1ToCondition "patient-1" p)
    (segs.filter (fun s => s.segmentType == "DG1")) 0

def pr1Block (segs : List Segment) : Except Unit (List BundleEntry) :=
  convSegs (fun _ p => convertPR1ToProcedure "patient-1" p)
    (segs.filter (fun s => s.segmentType == "PR1")) 0

def in1Block (segs : List Segment) : Except Unit (List BundleEntry) :=
  convSegs in1Mapper (segs.filter (fun s => s.segmentType == "IN1")) 0

def obxBlock (segs : List Segment) : Except Unit (List BundleEntry) :=
  convSegs (fun _ p => convertOBXToObservation "patient-1" p)
    (segs.filter (fun s => s.segmentType == "OBX")) 0

/-- Embeds the assembly loop of `convertHL7ToFHIR` (source lines
    1741-1859): the nine resource blocks are emitted in the fixed order
    MSH, PID, PV1, NK1, AL1, DG1, PR1, IN1, OBX; `patientId` is the
    constant `'patient-1'` throughout. -/
def buildEntries (segs : List Segment) : Except Unit (List BundleEntry) :=
  exApp (mshBlock segs)
    (exApp (pidBlock segs)
      (exApp (encBlock segs)
        (exApp (nk1Block segs)
          (exApp (al1Block segs)
            (exApp (dg1Block segs)
              (exApp (pr1Block segs)
                (exApp (in1Block segs) (obxBlock segs))))))))

/-- The two kinds of exception `convertHL7ToFHIR` can raise: the explicit
    `Error('HL7 message is empty')` of the empty-input guard, and a
    TypeError escaping from a segment mapper. -/
inductive JsError where
  | inputError : JsError
  | typeError : JsError
deriving DecidableEq

/-- Embeds `convertHL7ToFHIR` (source lines 1725-1860).  The external
    parser `parseHL7Message` is passed as the function argument `parse`
    (it lives outside this repository and is assumed to be a function of
    the message text that does not itself throw); `now` is the value of
    `new Date().toISOString()`, the sole clock read of the source, which
    flows only into `bundle.timestamp`. -/
def convertHL7ToFHIR (parse : String → List Segment) (now : String) (msg : String) :
    Except JsError Bundle :=
  if jsTrim msg = "" then .error .inputError
  else
    match buildEntries (parse msg) with
    | .ok es =>
      .ok { resourceType := "Bundle", bundleType := "collection", timestamp := now, entry := es }
    | .error _ => .error .typeError

lemma convertPV1ToEncounter_ok {pid : String} {p : ParsedSeg} {r : Resource}
    (h : convertPV1ToEncounter pid p = .ok r) :
    r.resourceType = "Encounter" ∧ r.patientRef = some ("Patient/" ++ pid) ∧
    r.status = some
      (if (if jsTruthy (p 45) then hl7DTofJVal (getFieldValue (p 45)) else none).isSome
       then "finished" else "in-progress") := by
  unfold convertPV1ToEncounter at h
  by_cases h1 :
      (jsTruthy (p 20) && (getFieldValues (p 20)).any fun fc => (getFieldValue fc).isNul) = true
  · rw [if_pos h1] at h
    exact absurd h (by simp)
  rw [if_neg h1] at h
  by_cases h2 : (jsTruthy (p 44) && (getFieldValue (p 44)).isArr) = true
  · rw [if_pos h2] at h
    exact absurd h (by simp)
  rw [if_neg h2] at h
  by_cases h3 : (jsTruthy (p 45) && (getFieldValue (p 45)).isArr) = true
  · rw [if_pos h3] at h
    exact absurd h (by simp)
  rw [if_neg h3] at h
  injection h with h
  subst h
  exact ⟨rfl, rfl, rfl⟩

/-- C1: for every parsed PV1 segment from which `convertPV1ToEncounter`
    produces an Encounter, the emitted status is one of `in-progress` and
    `finished`; it is `finished` exactly when field 45 holds a discharge
    date/time that normalizes (initial state `in-progress`, a single
    possible transition); and the status is a function of field 45 alone —
    two segments agreeing on field 45 get the same status. -/
theorem encounter_status_machine (pid : String) (p : ParsedSeg) (r : Resource)
    (h : convertPV1ToEncounter pid p = .ok r) :
    (r.status = some "in-progress" ∨ r.status = some "finished")
    ∧ (r.status = some "finished" ↔
        (jsTruthy (p 45) = true ∧ (hl7DTofJVal (getFieldValue (p 45))).isSome = true))
    ∧ (∀ (q : ParsedSeg) (r' : Resource), convertPV1ToEncounter pid q = .ok r' →
        q 45 = p 45 → r'.status = r.status) := by
  obtain ⟨-, -, hs⟩ := convertPV1ToEncounter_ok h
  refine ⟨?_, ?_, ?_⟩
  · rw [hs]
    cases hd : (if jsTruthy (p 45) then hl7DTofJVal (getFieldValue (p 45)) else none).isSome with
    | false => left; rfl
    | true => right; rfl
  · rw [hs]
    cases hj : jsTruthy (p 45) with
    | false => simp [hj]
    | true =>
      cases hd : (hl7DTofJVal (getFieldValue (p 45))).isSome with
      | false => simp [hj, hd]
      | true => simp [hj, hd]
  · intro q r' h' hq
    obtain ⟨-, -, hs'⟩ := convertPV1ToEncounter_ok h'
    rw [hs', hs, hq]

/-- Witness for `encounter_status_machine`: a PV1 with a 14-digit
    discharge date/time in field 45 yields status `finished`. -/
theorem encounter_status_machine_witness :
    convertPV1ToEncounter "patient-1"
        (fun n => if n = 45 then JVal.str "20240101120000" else JVal.nul)
      = .ok { resourceType := "Encounter", id := "encounter-1",
              patientRef := some "Patient/patient-1", status := some "finished" }
    ∧ (({ resourceType := "Encounter", id := "encounter-1",
          patientRef := some "Patient/patient-1",
          status := some "finished" : Resource }).status = some "in-progress"
        ∨ ({ resourceType := "Encounter", id := "encounter-1",
             patientRef := some "Patient/patient-1",
             status := some "finished" : Resource }).status = some "finished") := by
  refine ⟨rfl, ?_⟩
  exact (encounter_status_machine "patient-1"
      (fun n => if n = 45 then JVal.str "20240101120000" else JVal.nul)
      { resourceType := "Encounter", id := "encounter-1",
        patientRef := some "Patient/patient-1", status := some "finished" } rfl).1

lemma convertPIDToPatient_ok {p : ParsedSeg} {r : Resource}
    (h : convertPIDToPatient p = .ok r) :
    r.resourceType = "Patient" ∧ r.id = "patient-1" ∧
    r.deceasedDateTime
      = (if hasFieldValue (p 29) then hl7DTofJVal (getFieldValue (p 29)) else none) ∧
    r.deceasedBoolean
      = (if hasFieldValue (p 30) && jvalStrEq (getFieldValue (p 30)) "Y"
            && (if hasFieldValue (p 29) then hl7DTofJVal (getFieldValue (p 29)) else none).isNone
         then some true else none) := by
  unfold convertPIDToPatient at h
  by_cases h1 : (hasFieldValue (p 5) && (getFieldValues (p 5)).any nameCrashes) = true
  · rw [if_pos h1] at h
    exact absurd h (by simp)
  rw [if_neg h1] at h
  by_cases h2 : (hasFieldValue (p 7) && (getFieldValue (p 7)).isArr) = true
  · rw [if_pos h2] at h
    exact absurd h (by simp)
  rw [if_neg h2] at h
  by_cases h3 : (hasFieldValue (p 8) && (getFieldValue (p 8)).isArr) = true
  · rw [if_pos h3] at h
    exact absurd h (by simp)
  rw [if_neg h3] at h
  by_cases h4 : (hasFieldValue (p 11) && (getFieldValues (p 11)).any addrCrashes) = true
  · rw [if_pos h4] at h
    exact absurd h (by simp)
  rw [if_neg h4] at h
  by_cases h5 : (hasFieldValue (p 29) && (getFieldValue (p 29)).isArr) = true
  · rw [if_pos h5] at h
    exact absurd h (by simp)
  rw [if_neg h5] at h
  injection h with h
  subst h
  exact ⟨rfl, rfl, rfl, rfl⟩

/-- C7: for every parsed PID segment from which `convertPIDToPatient`
    produces a Patient: `deceasedDateTime` IS the normalization of the
    extracted field 29 when that field is present (so it is set whenever
    field 29 yields a normalizable date, and set from nowhere else);
    `deceasedBoolean = true` exactly when the extracted field 30 is `'Y'`
    and no death date was set; `deceasedBoolean` is never `false`; and
    the two death fields are never both present on one Patient. -/
theorem patient_deceased_exclusive (p : ParsedSeg) (r : Resource)
    (h : convertPIDToPatient p = .ok r) :
    r.deceasedDateTime
      = (if hasFieldValue (p 29) then hl7DTofJVal (getFieldValue (p 29)) else none)
    ∧ (∀ d, r.deceasedDateTime = some d →
        hasFieldValue (p 29) = true ∧ hl7DTofJVal (getFieldValue (p 29)) = some d)
    ∧ (r.deceasedBoolean = some true ↔
        (hasFieldValue (p 30) = true ∧ jvalStrEq (getFieldValue (p 30)) "Y" = true
          ∧ r.deceasedDateTime = none))
    ∧ r.deceasedBoolean ≠ some false
    ∧ ¬(r.deceasedDateTime.isSome = true ∧ r.deceasedBoolean.isSome = true) := by
  obtain ⟨-, -, hdd, hdb⟩ := convertPIDToPatient_ok h
  refine ⟨hdd, ?_, ?_, ?_, ?_⟩
  · intro d hd
    rw [hdd] at hd
    by_cases h29 : hasFieldValue (p 29) = true
    · rw [if_pos h29] at hd
      exact ⟨h29, hd⟩
    · rw [if_neg h29] at hd
      exact absurd hd (by simp)
  · rw [hdb, hdd]
    by_cases hc : (hasFieldValue (p 30) && jvalStrEq (getFieldValue (p 30)) "Y"
        && (if hasFieldValue (p 29) then hl7DTofJVal (getFieldValue (p 29))
            else none).isNone) = true
    · rw [if_pos hc]
      have hc' := (Bool.and_eq_true _ _).mp hc
      have hab := (Bool.and_eq_true _ _).mp hc'.1
      constructor
      · intro _
        exact ⟨hab.1, hab.2, Option.isNone_iff_eq_none.mp hc'.2⟩
      · intro _
        rfl
    · rw [if_neg hc]
      constructor
      · intro hcontra
        exact absurd hcontra (by simp)
      · rintro ⟨ha, hb, hn⟩
        exact absurd (by simp [ha, hb, hn] :
          (hasFieldValue (p 30) && jvalStrEq (getFieldValue (p 30)) "Y"
            && (if hasFieldValue (p 29) then hl7DTofJVal (getFieldValue (p 29))
                else none).isNone) = true) hc
  · rw [hdb]
    split
    · simp
    · simp
  · rintro ⟨h1, h2⟩
    rw [hdd] at h1
    rw [hdb] at h2
    by_cases hc : (hasFieldValue (p 30) && jvalStrEq (getFieldValue (p 30)) "Y"
        && (if hasFieldValue (p 29) then hl7DTofJVal (getFieldValue (p 29))
            else none).isNone) = true
    · have hn := ((Bool.and_eq_true _ _).mp hc).2
      rw [Option.isNone_iff_eq_none] at hn
      rw [hn] at h1
      exact absurd h1 (by simp)
    · rw [if_neg hc] at h2
      exact absurd h2 (by simp)

/-- Witness fixture: a PID whose field 29 holds the date `20240101` and
    whose other fields are absent. -/
def deceasedSeg : ParsedSeg := fun n => if n = 29 then JVal.str "20240101" else JVal.nul

/-- Witness fixture: the Patient `convertPIDToPatient` produces from
    `deceasedSeg`. -/
def deceasedPatient : Resource :=
  { resourceType := "Patient", id := "patient-1", deceasedDateTime := some "2024-01-01" }

/-- Witness for `patient_deceased_exclusive`: a PID with a normalizable
    death date in field 29 gets `deceasedDateTime` set to exactly the
    normalization of that field, and `deceasedBoolean` is not `false`. -/
theorem patient_deceased_exclusive_witness :
    convertPIDToPatient deceasedSeg = .ok deceasedPatient
    ∧ deceasedPatient.deceasedDateTime
        = (if hasFieldValue (deceasedSeg 29) then hl7DTofJVal (getFieldValue (deceasedSeg 29))
           else none)
    ∧ deceasedPatient.deceasedBoolean ≠ some false := by
  refine ⟨rfl, ?_, ?_⟩
  · exact (patient_deceased_exclusive deceasedSeg deceasedPatient rfl).1
  · exact (patient_deceased_exclusive deceasedSeg deceasedPatient rfl).2.2.2.1

/-- C4 counterexample: for the component-array representation
    `field9 = ['ADT', 'A01']` the claim requires the event code to be the
    2nd component `'A01'`, but `getFieldValue` collapses the array to its
    first component, so the emitted code is `'ADT'`. -/
theorem msh_event_code_counterexample :
    mshEventCode (JVal.arr [JVal.str "ADT", JVal.str "A01"]) = some (JVal.str "ADT")
    ∧ JVal.str "ADT" ≠ JVal.str "A01" := by
  refine ⟨rfl, ?_⟩
  intro hcontra
  injection hcontra with hcontra
  exact absurd hcontra (by decide)

/-- C4 amended: whenever the extracted value of the message-type field is
    a scalar string `s` (so in particular for a bare scalar field and for
    a component-array field, where the extraction yields the first
    component only), the event code is the 2nd `'^'`-token of `s` if
    non-empty, else the 1st if non-empty, else the literal `'ADT'`. -/
theorem msh_event_code_amended (f9 : JVal) (s : String)
    (h1 : jsTruthy f9 = true) (h2 : getFieldValue f9 = JVal.str s) (h3 : s ≠ "") :
    ((jsSplit '^' s).getD 1 "" ≠ "" →
        mshEventCode f9 = some (JVal.str ((jsSplit '^' s).getD 1 "")))
    ∧ ((jsSplit '^' s).getD 1 "" = "" → (jsSplit '^' s).getD 0 "" ≠ "" →
        mshEventCode f9 = some (JVal.str ((jsSplit '^' s).getD 0 "")))
    ∧ ((jsSplit '^' s).getD 1 "" = "" → (jsSplit '^' s).getD 0 "" = "" →
        mshEventCode f9 = some (JVal.str "ADT")) := by
  have hbase : mshEventCode f9
      = some (.str (jsOrS ((jsSplit '^' s).getD 1 "")
                    (jsOrS ((jsSplit '^' s).getD 0 "") "ADT"))) := by
    unfold mshEventCode
    rw [if_pos h1, h2]
    simp only [if_neg h3]
  refine ⟨?_, ?_, ?_⟩
  · intro hne
    rw [hbase]
    rw [jsOrS, if_neg hne]
  · intro he hne
    rw [hbase]
    rw [jsOrS, if_pos he, jsOrS, if_neg hne]
  · intro he he0
    rw [hbase]
    rw [jsOrS, if_pos he, jsOrS, if_pos he0]

/-- Witness for `msh_event_code_amended` at the bare scalar
    `'ADT^A01'`: the event code is the 2nd token `'A01'`. -/
theorem msh_event_code_amended_witness :
    jsTruthy (JVal.str "ADT^A01") = true
    ∧ getFieldValue (JVal.str "ADT^A01") = JVal.str "ADT^A01"
    ∧ mshEventCode (JVal.str "ADT^A01") = some (JVal.str "A01") := by
  refine ⟨by decide, rfl, ?_⟩
  exact (msh_event_code_amended (JVal.str "ADT^A01") "ADT^A01" (by decide) rfl
    (by decide)).1 (by decide)

/-- The fixed emission rank of a resource type in the assembler
    (position of its block in `buildEntries`). -/
def typeRank (t : String) : Nat :=
  if t = "MessageHeader" then 0
  else if t = "Patient" then 1
  else if t = "Encounter" then 2
  else if t = "RelatedPerson" then 3
  else if t = "AllergyIntolerance" then 4
  else if t = "Condition" then 5
  else if t = "Procedure" then 6
  else if t = "Coverage" then 7
  else if t = "Observation" then 8
  else 9

/-- Two adjacent bundle entries are in emission order when the rank of
    the first resource type does not exceed that of the second. -/
def entryRankLE (a b : BundleEntry) : Prop :=
  typeRank a.resource.resourceType ≤ typeRank b.resource.resourceType

/-- The entry list of an assembler step, nil when the step threw. -/
def blockOrNil : Except Unit (List BundleEntry) → List BundleEntry
  | .ok l => l
  | .error _ => []

lemma exApp_ok {a b : Except Unit (List BundleEntry)} {l : List BundleEntry}
    (h : exApp a b = .ok l) :
    ∃ xs ys, a = .ok xs ∧ b = .ok ys ∧ l = xs ++ ys := by
  unfold exApp at h
  cases ha : a with
  | error e =>
    rw [ha] at h
    exact absurd h (by simp)
  | ok xs =>
    rw [ha] at h
    cases hb : b with
    | error e =>
      rw [hb] at h
      exact absurd h (by simp)
    | ok ys =>
      rw [hb] at h
      injection h with h
      exact ⟨xs, ys, rfl, rfl, h.symm⟩

lemma buildEntries_ok {segs : List Segment} {es : List BundleEntry}
    (h : buildEntries segs = .ok es) :
    ∃ l1 l2 l3 l4 l5 l6 l7 l8 l9,
      mshBlock segs = .ok l1 ∧ pidBlock segs = .ok l2 ∧ encBlock segs = .ok l3
      ∧ nk1Block segs = .ok l4 ∧ al1Block segs = .ok l5 ∧ dg1Block segs = .ok l6
      ∧ pr1Block segs = .ok l7 ∧ in1Block segs = .ok l8 ∧ obxBlock segs = .ok l9
      ∧ es = l1 ++ (l2 ++ (l3 ++ (l4 ++ (l5 ++ (l6 ++ (l7 ++ (l8 ++ l9))))))) := by
  unfold buildEntries at h
  obtain ⟨l1, r1, h1, h1r, rfl⟩ := exApp_ok h
  obtain ⟨l2, r2, h2, h2r, rfl⟩ := exApp_ok h1r
  obtain ⟨l3, r3, h3, h3r, rfl⟩ := exApp_ok h2r
  obtain ⟨l4, r4, h4, h4r, rfl⟩ := exApp_ok h3r
  obtain ⟨l5, r5, h5, h5r, rfl⟩ := exApp_ok h4r
  obtain ⟨l6, r6, h6, h6r, rfl⟩ := exApp_ok h5r
  obtain ⟨l7, r7, h7, h7r, rfl⟩ := exApp_ok h6r
  obtain ⟨l8, l9, h8, h9, rfl⟩ := exApp_ok h7r
  exact ⟨l1, l2, l3, l4, l5, l6, l7, l8, l9, h1, h2, h3, h4, h5, h6, h7, h8, h9, rfl⟩

lemma convert_ok_entries {parse : String → List Segment} {now msg : String} {b : Bundle}
    (h : convertHL7ToFHIR parse now msg = .ok b) :
    buildEntries (parse msg) = .ok b.entry ∧ jsTrim msg ≠ "" ∧ b.timestamp = now
    ∧ b.resourceType = "Bundle" ∧ b.bundleType = "collection" := by
  unfold convertHL7ToFHIR at h
  by_cases ht : jsTrim msg = ""
  · rw [if_pos ht] at h
    exact absurd h (by simp)
  · rw [if_neg ht] at h
    cases hb : buildEntries (parse msg) with
    | error e =>
      rw [hb] at h
      exact absurd h (by simp)
    | ok es =>
      rw [hb] at h
      injection h with h
      subst h
      exact ⟨rfl, ht, rfl, rfl, rfl⟩

lemma convertMSHToMessageHeader_ok {p : ParsedSeg} {r : Resource}
    (h : convertMSHToMessageHeader p = .ok r) :
    r.resourceType = "MessageHeader" ∧ r.patientRef = none := by
  unfold convertMSHToMessageHeader at h
  split_ifs at h
  all_goals
    first
      | exact Except.noConfusion h
      | (injection h with h; subst h; exact ⟨rfl, rfl⟩)

lemma convertNK1ToRelatedPerson_ok {pid : String} {p : ParsedSeg} {r : Resource}
    (h : convertNK1ToRelatedPerson pid p = .ok r) :
    r.resourceType = "RelatedPerson" ∧ r.patientRef = some ("Patient/" ++ pid) := by
  unfold convertNK1ToRelatedPerson at h
  split_ifs at h
  all_goals
    first
      | exact Except.noConfusion h
      | (injection h with h; subst h; exact ⟨rfl, rfl⟩)

lemma convertAL1ToAllergyIntolerance_ok {pid : String} {p : ParsedSeg} {r : Resource}
    (h : convertAL1ToAllergyIntolerance pid p = .ok r) :
    r.resourceType = "AllergyIntolerance" ∧ r.patientRef = some ("Patient/" ++ pid) := by
  unfold convertAL1ToAllergyIntolerance at h
  split_ifs at h
  all_goals
    first
      | exact Except.noConfusion h
      | (injection h with h; subst h; exact ⟨rfl, rfl⟩)

lemma convertDG1ToCondition_ok {pid : String} {p : ParsedSeg} {r : Resource}
    (h : convertDG1ToCondition pid p = .ok r) :
    r.resourceType = "Condition" ∧ r.patientRef = some ("Patient/" ++ pid) := by
  unfold convertDG1ToCondition at h
  split_ifs at h
  all_goals
    first
      | exact Except.noConfusion h
      | (injection h with h; subst h; exact ⟨rfl, rfl⟩)

lemma convertPR1ToProcedure_ok {pid : String} {p : ParsedSeg} {r : Resource}
    (h : convertPR1ToProcedure pid p = .ok r) :
    r.resourceType = "Procedure" ∧ r.patientRef = some ("Patient/" ++ pid) := by
  unfold convertPR1ToProcedure at h
  split_ifs at h
  all_goals
    first
      | exact Except.noConfusion h
      | (injection h with h; subst h; exact ⟨rfl, rfl⟩)

lemma convertIN1ToCoverage_ok {pid : String} {p : ParsedSeg} {r : Resource}
    (h : convertIN1ToCoverage pid p = .ok r) :
    r.resourceType = "Coverage" ∧ r.patientRef = some ("Patient/" ++ pid) := by
  unfold convertIN1ToCoverage at h
  split_ifs at h
  all_goals
    first
      | exact Except.noConfusion h
      | (injection h with h; subst h; exact ⟨rfl, rfl⟩)

lemma convertOBXToObservation_ok {pid : String} {p : ParsedSeg} {r : Resource}
    (h : convertOBXToObservation pid p = .ok r) :
    r.resourceType = "Observation" ∧ r.patientRef = some ("Patient/" ++ pid) := by
  unfold convertOBXToObservation at h
  split_ifs at h
  all_goals
    first
      | exact Except.noConfusion h
      | (injection h with h; subst h; exact ⟨rfl, rfl⟩)

lemma encMapper_ok {i : Nat} {p : ParsedSeg} {r : Resource}
    (h : encMapper i p = .ok r) :
    r.resourceType = "Encounter" ∧ r.patientRef = some "Patient/patient-1"
    ∧ r.id = "encounter-" ++ toString (i + 1) := by
  unfold encMapper at h
  cases hm : convertPV1ToEncounter "patient-1" p with
  | error e =>
    rw [hm] at h
    exact absurd h (by simp)
  | ok r0 =>
    rw [hm] at h
    injection h with h
    subst h
    obtain ⟨ht, hp, -⟩ := convertPV1ToEncounter_ok hm
    exact ⟨ht, hp, rfl⟩

lemma nk1Mapper_ok {i : Nat} {p : ParsedSeg} {r : Resource}
    (h : nk1Mapper i p = .ok r) :
    r.resourceType = "RelatedPerson" ∧ r.patientRef = some "Patient/patient-1"
    ∧ r.id = "relatedperson-" ++ toString (i + 1) := by
  unfold nk1Mapper at h
  cases hm : convertNK1ToRelatedPerson "patient-1" p with
  | error e =>
    rw [hm] at h
    exact absurd h (by simp)
  | ok r0 =>
    rw [hm] at h
    injection h with h
    subst h
    obtain ⟨ht, hp⟩ := convertNK1ToRelatedPerson_ok hm
    exact ⟨ht, hp, rfl⟩

lemma in1Mapper_ok {i : Nat} {p : ParsedSeg} {r : Resource}
    (h : in1Mapper i p = .ok r) :
    r.resourceType = "Coverage" ∧ r.patientRef = some "Patient/patient-1"
    ∧ r.id = "coverage-" ++ toString (i + 1) := by
  unfold in1Mapper at h
  cases hm : convertIN1ToCoverage "patient-1" p with
  | error e =>
    rw [hm] at h
    exact absurd h (by simp)
  | ok r0 =>
    rw [hm] at h
    injection h with h
    subst h
    obtain ⟨ht, hp⟩ := convertIN1ToCoverage_ok hm
    exact ⟨ht, hp, rfl⟩

lemma convSegs_ok_forall {f : Nat → ParsedSeg → Except Unit Resource}
    {P : BundleEntry → Prop}
    (hf : ∀ i p r, f i p = .ok r → P (mkEntry r)) :
    ∀ (l : List Segment) (i : Nat) (es : List BundleEntry),
      convSegs f l i = .ok es → ∀ e ∈ es, P e := by
  intro l
  induction l with
  | nil =>
    intro i es h e he
    unfold convSegs at h
    injection h with h
    subst h
    exact absurd he (by simp)
  | cons s rest ih =>
    intro i es h e he
    unfold convSegs at h
    split at h
    · rename_i p hp
      split at h
      · exact Except.noConfusion h
      · rename_i r hf1
        split at h
        · exact Except.noConfusion h
        · rename_i es0 hrest
          injection h with h
          subst h
          rcases List.mem_cons.mp he with he | he
          · subst he
            exact hf i p r hf1
          · exact ih _ _ hrest e he
    · exact ih _ _ h e he

lemma convSegs_ok_length {f : Nat → ParsedSeg → Except Unit Resource} :
    ∀ (l : List Segment) (i : Nat) (es : List BundleEntry),
      convSegs f l i = .ok es → es.length = l.countP (fun s => s.parsed.isSome) := by
  intro l
  induction l with
  | nil =>
    intro i es h
    unfold convSegs at h
    injection h with h
    subst h
    rfl
  | cons s rest ih =>
    intro i es h
    unfold convSegs at h
    split at h
    · rename_i p hp
      split at h
      · exact Except.noConfusion h
      · rename_i r hf1
        split at h
        · exact Except.noConfusion h
        · rename_i es0 hrest
          injection h with h
          subst h
          rw [List.countP_cons]
          simp [hp, ih _ _ hrest]
    · rename_i hp
      rw [List.countP_cons]
      simp [hp, ih _ _ h]

lemma singleBlock_ok_forall {ty : String} {conv : ParsedSeg → Except Unit Resource}
    {segs : List Segment} {es : List BundleEntry} {P : BundleEntry → Prop}
    (hf : ∀ p r, conv p = .ok r → P (mkEntry r))
    (h : singleBlock ty conv segs = .ok es) : ∀ e ∈ es, P e := by
  unfold singleBlock at h
  split at h
  · rename_i s hfind
    split at h
    · rename_i p hp
      split at h
      · exact Except.noConfusion h
      · rename_i r hc
        injection h with h
        subst h
        intro e he
        rcases List.mem_cons.mp he with he | he
        · subst he
          exact hf _ r hc
        · exact absurd he (by simp)
    · injection h with h
      subst h
      intro e he
      exact absurd he (by simp)
  · injection h with h
    subst h
    intro e he
    exact absurd he (by simp)

lemma filter_rt_eq_self {l : List BundleEntry} {T : String}
    (h : ∀ e ∈ l, e.resource.resourceType = T) :
    l.filter (fun e => e.resource.resourceType == T) = l := by
  apply List.filter_eq_self.mpr
  intro a ha
  simp [h a ha]

lemma filter_rt_eq_nil {l : List BundleEntry} {T T' : String}
    (h : ∀ e ∈ l, e.resource.resourceType = T') (hne : T' ≠ T) :
    l.filter (fun e => e.resource.resourceType == T) = [] := by
  apply List.filter_eq_nil_iff.mpr
  intro a ha
  simp [h a ha, hne]

lemma pairwise_rle_of_const {l : List BundleEntry} {T : String}
    (h : ∀ e ∈ l, e.resource.resourceType = T) : l.Pairwise entryRankLE := by
  induction l with
  | nil => exact List.Pairwise.nil
  | cons a rest ih =>
    refine List.Pairwise.cons ?_ (ih fun e he => h e (List.mem_cons_of_mem a he))
    intro b hb
    unfold entryRankLE
    rw [h a (List.mem_cons_self a rest), h b (List.mem_cons_of_mem a hb)]

/-- Facts carried by every entry of a block: its resource type, the
    `fullUrl`/`id` agreement, and (for the seven patient-linked kinds)
    the constant patient reference. -/
def entryFacts (T : String) (ref : Option String) (e : BundleEntry) : Prop :=
  e.resource.resourceType = T ∧ e.fullUrl = "urn:uuid:" ++ e.resource.id
  ∧ (∀ x, ref = some x → e.resource.patientRef = some x)

lemma mshBlock_facts {segs : List Segment} {es : List BundleEntry}
    (h : mshBlock segs = .ok es) : ∀ e ∈ es, entryFacts "MessageHeader" none e := by
  refine singleBlock_ok_forall ?_ h
  intro p r hc
  obtain ⟨ht, -⟩ := convertMSHToMessageHeader_ok hc
  exact ⟨ht, rfl, fun x hx => absurd hx (by simp)⟩

lemma pidBlock_facts {segs : List Segment} {es : List BundleEntry}
    (h : pidBlock segs = .ok es) : ∀ e ∈ es, entryFacts "Patient" none e := by
  refine singleBlock_ok_forall ?_ h
  intro p r hc
  obtain ⟨ht, -, -, -⟩ := convertPIDToPatient_ok hc
  exact ⟨ht, rfl, fun x hx => absurd hx (by simp)⟩

lemma encBlock_facts {segs : List Segment} {es : List BundleEntry}
    (h : encBlock segs = .ok es) :
    ∀ e ∈ es, entryFacts "Encounter" (some "Patient/patient-1") e := by
  refine convSegs_ok_forall ?_ _ _ _ h
  intro i p r hc
  obtain ⟨ht, hp, -⟩ := encMapper_ok hc
  refine ⟨ht, rfl, fun x hx => ?_⟩
  injection hx with hx
  subst hx
  exact hp

lemma nk1Block_facts {segs : List Segment} {es : List BundleEntry}
    (h : nk1Block segs = .ok es) :
    ∀ e ∈ es, entryFacts "RelatedPerson" (some "Patient/patient-1") e := by
  refine convSegs_ok_forall ?_ _ _ _ h
  intro i p r hc
  obtain ⟨ht, hp, -⟩ := nk1Mapper_ok hc
  refine ⟨ht, rfl, fun x hx => ?_⟩
  injection hx with hx
  subst hx
  exact hp

lemma al1Block_facts {segs : List Segment} {es : List BundleEntry}
    (h : al1Block segs = .ok es) :
    ∀ e ∈ es, entryFacts "AllergyIntolerance" (some "Patient/patient-1") e := by
  refine convSegs_ok_forall ?_ _ _ _ h
  intro i p r hc
  obtain ⟨ht, hp⟩ := convertAL1ToAllergyIntolerance_ok hc
  refine ⟨ht, rfl, fun x hx => ?_⟩
  injection hx with hx
  subst hx
  exact hp

lemma dg1Block_facts {segs : List Segment} {es : List BundleEntry}
    (h : dg1Block segs = .ok es) :
    ∀ e ∈ es, entryFacts "Condition" (some "Patient/patient-1") e := by
  refine convSegs_ok_forall ?_ _ _ _ h
  intro i p r hc
  obtain ⟨ht, hp⟩ := convertDG1ToCondition_ok hc
  refine ⟨ht, rfl, fun x hx => ?_⟩
  injection hx with hx
  subst hx
  exact hp

lemma pr1Block_facts {segs : List Segment} {es : List BundleEntry}
    (h : pr1Block segs = .ok es) :
    ∀ e ∈ es, entryFacts "Procedure" (some "Patient/patient-1") e := by
  refine convSegs_ok_forall ?_ _ _ _ h
  intro i p r hc
  obtain ⟨ht, hp⟩ := convertPR1ToProcedure_ok hc
  refine ⟨ht, rfl, fun x hx => ?_⟩
  injection hx with hx
  subst hx
  exact hp

lemma in1Block_facts {segs : List Segment} {es : List BundleEntry}
    (h : in1Block segs = .ok es) :
    ∀ e ∈ es, entryFacts "Coverage" (some "Patient/patient-1") e := by
  refine convSegs_ok_forall ?_ _ _ _ h
  intro i p r hc
  obtain ⟨ht, hp, -⟩ := in1Mapper_ok hc
  refine ⟨ht, rfl, fun x hx => ?_⟩
  injection hx with hx
  subst hx
  exact hp

lemma obxBlock_facts {segs : List Segment} {es : List BundleEntry}
    (h : obxBlock segs = .ok es) :
    ∀ e ∈ es, entryFacts "Observation" (some "Patient/patient-1") e := by
  refine convSegs_ok_forall ?_ _ _ _ h
  intro i p r hc
  obtain ⟨ht, hp⟩ := convertOBXToObservation_ok hc
  refine ⟨ht, rfl, fun x hx => ?_⟩
  injection hx with hx
  subst hx
  exact hp

/-- The id sequence the assembler hands to an index-numbered block:
    one id `g i` per occurrence with a parsed body, where `i` counts
    every discovered occurrence of the kind (parsed or not), 0-based. -/
def idsFrom (g : Nat → String) : List Segment → Nat → List String
  | [], _ => []
  | s :: rest, i =>
    if s.parsed.isSome then g i :: idsFrom g rest (i + 1) else idsFrom g rest (i + 1)

lemma convSegs_ok_ids {f : Nat → ParsedSeg → Except Unit Resource} {g : Nat → String}
    (hf : ∀ i p r, f i p = .ok r → r.id = g i) :
    ∀ (l : List Segment) (i : Nat) (es : List BundleEntry),
      convSegs f l i = .ok es → es.map (fun e => e.resource.id) = idsFrom g l i := by
  intro l
  induction l with
  | nil =>
    intro i es h
    unfold convSegs at h
    injection h with h
    subst h
    rfl
  | cons s rest ih =>
    intro i es h
    unfold convSegs at h
    split at h
    · rename_i p hp
      split at h
      · exact Except.noConfusion h
      · rename_i r hf1
        split at h
        · exact Except.noConfusion h
        · rename_i es0 hrest
          injection h with h
          subst h
          rw [List.map_cons]
          unfold idsFrom
          rw [if_pos (by simp [hp])]
          rw [ih _ _ hrest]
          have : (mkEntry r).resource.id = g i := hf i p r hf1
          rw [this]
    · rename_i hp
      unfold idsFrom
      rw [if_neg (by simp [hp])]
      exact ih _ _ h

lemma entries_filter_all {segs : List Segment} {es : List BundleEntry}
    (h : buildEntries segs = .ok es) :
    es.filter (fun e => e.resource.resourceType == "MessageHeader") = blockOrNil (mshBlock segs)
    ∧ es.filter (fun e => e.resource.resourceType == "Patient") = blockOrNil (pidBlock segs)
    ∧ es.filter (fun e => e.resource.resourceType == "Encounter") = blockOrNil (encBlock segs)
    ∧ es.filter (fun e => e.resource.resourceType == "RelatedPerson") = blockOrNil (nk1Block segs)
    ∧ es.filter (fun e => e.resource.resourceType == "AllergyIntolerance")
        = blockOrNil (al1Block segs)
    ∧ es.filter (fun e => e.resource.resourceType == "Condition") = blockOrNil (dg1Block segs)
    ∧ es.filter (fun e => e.resource.resourceType == "Procedure") = blockOrNil (pr1Block segs)
    ∧ es.filter (fun e => e.resource.resourceType == "Coverage") = blockOrNil (in1Block segs)
    ∧ es.filter (fun e => e.resource.resourceType == "Observation")
        = blockOrNil (obxBlock segs) := by
  obtain ⟨l1, l2, l3, l4, l5, l6, l7, l8, l9, h1, h2, h3, h4, h5, h6, h7, h8, h9, rfl⟩ :=
    buildEntries_ok h
  have t1 := fun e he => (mshBlock_facts h1 e he).1
  have t2 := fun e he => (pidBlock_facts h2 e he).1
  have t3 := fun e he => (encBlock_facts h3 e he).1
  have t4 := fun e he => (nk1Block_facts h4 e he).1
  have t5 := fun e he => (al1Block_facts h5 e he).1
  have t6 := fun e he => (dg1Block_facts h6 e he).1
  have t7 := fun e he => (pr1Block_facts h7 e he).1
  have t8 := fun e he => (in1Block_facts h8 e he).1
  have t9 := fun e he => (obxBlock_facts h9 e he).1
  refine ⟨?_, ?_, ?_, ?_, ?_, ?_, ?_, ?_, ?_⟩
  · simp only [List.filter_append]
    rw [filter_rt_eq_self t1, filter_rt_eq_nil t2 (by decide), filter_rt_eq_nil t3 (by decide),
        filter_rt_eq_nil t4 (by decide), filter_rt_eq_nil t5 (by decide),
        filter_rt_eq_nil t6 (by decide), filter_rt_eq_nil t7 (by decide),
        filter_rt_eq_nil t8 (by decide), filter_rt_eq_nil t9 (by decide), h1]
    simp [blockOrNil]
  · simp only [List.filter_append]
    rw [filter_rt_eq_nil t1 (by decide), filter_rt_eq_self t2, filter_rt_eq_nil t3 (by decide),
        filter_rt_eq_nil t4 (by decide), filter_rt_eq_nil t5 (by decide),
        filter_rt_eq_nil t6 (by decide), filter_rt_eq_nil t7 (by decide),
        filter_rt_eq_nil t8 (by decide), filter_rt_eq_nil t9 (by decide), h2]
    simp [blockOrNil]
  · simp only [List.filter_append]
    rw [filter_rt_eq_nil t1 (by decide), filter_rt_eq_nil t2 (by decide), filter_rt_eq_self t3,
        filter_rt_eq_nil t4 (by decide), filter_rt_eq_nil t5 (by decide),
        filter_rt_eq_nil t6 (by decide), filter_rt_eq_nil t7 (by decide),
        filter_rt_eq_nil t8 (by decide), filter_rt_eq_nil t9 (by decide), h3]
    simp [blockOrNil]
  · simp only [List.filter_append]
    rw [filter_rt_eq_nil t1 (by decide), filter_rt_eq_nil t2 (by decide),
        filter_rt_eq_nil t3 (by decide), filter_rt_eq_self t4, filter_rt_eq_nil t5 (by decide),
        filter_rt_eq_nil t6 (by decide), filter_rt_eq_nil t7 (by decide),
        filter_rt_eq_nil t8 (by decide), filter_rt_eq_nil t9 (by decide), h4]
    simp [blockOrNil]
  · simp only [List.filter_append]
    rw [filter_rt_eq_nil t1 (by decide), filter_rt_eq_nil t2 (by decide),
        filter_rt_eq_nil t3 (by decide), filter_rt_eq_nil t4 (by decide), filter_rt_eq_self t5,
        filter_rt_eq_nil t6 (by decide), filter_rt_eq_nil t7 (by decide),
        filter_rt_eq_nil t8 (by decide), filter_rt_eq_nil t9 (by decide), h5]
    simp [blockOrNil]
  · simp only [List.filter_append]
    rw [filter_rt_eq_nil t1 (by decide), filter_rt_eq_nil t2 (by decide),
        filter_rt_eq_nil t3 (by decide), filter_rt_eq_nil t4 (by decide),
        filter_rt_eq_nil t5 (by decide), filter_rt_eq_self t6, filter_rt_eq_nil t7 (by decide),
        filter_rt_eq_nil t8 (by decide), filter_rt_eq_nil t9 (by decide), h6]
    simp [blockOrNil]
  · simp only [List.filter_append]
    rw [filter_rt_eq_nil t1 (by decide), filter_rt_eq_nil t2 (by decide),
        filter_rt_eq_nil t3 (by decide), filter_rt_eq_nil t4 (by decide),
        filter_rt_eq_nil t5 (by decide), filter_rt_eq_nil t6 (by decide), filter_rt_eq_self t7,
        filter_rt_eq_nil t8 (by decide), filter_rt_eq_nil t9 (by decide), h7]
    simp [blockOrNil]
  · simp only [List.filter_append]
    rw [filter_rt_eq_nil t1 (by decide), filter_rt_eq_nil t2 (by decide),
        filter_rt_eq_nil t3 (by decide), filter_rt_eq_nil t4 (by decide),
        filter_rt_eq_nil t5 (by decide), filter_rt_eq_nil t6 (by decide),
        filter_rt_eq_nil t7 (by decide), filter_rt_eq_self t8,
        filter_rt_eq_nil t9 (by decide), h8]
    simp [blockOrNil]
  · simp only [List.filter_append]
    rw [filter_rt_eq_nil t1 (by decide), filter_rt_eq_nil t2 (by decide),
        filter_rt_eq_nil t3 (by decide), filter_rt_eq_nil t4 (by decide),
        filter_rt_eq_nil t5 (by decide), filter_rt_eq_nil t6 (by decide),
        filter_rt_eq_nil t7 (by decide), filter_rt_eq_nil t8 (by decide),
        filter_rt_eq_self t9, h9]
    simp [blockOrNil]

lemma pairwise_step {l m : List BundleEntry} {T : String} {c : Nat}
    (ht : ∀ e ∈ l, e.resource.resourceType = T)
    (hTc : typeRank T ≤ c)
    (hm : m.Pairwise entryRankLE)
    (hgem : ∀ e ∈ m, c ≤ typeRank e.resource.resourceType) :
    (l ++ m).Pairwise entryRankLE
    ∧ (∀ e ∈ l ++ m, typeRank T ≤ typeRank e.resource.resourceType) := by
  constructor
  · refine List.pairwise_append.mpr ⟨pairwise_rle_of_const ht, hm, ?_⟩
    intro a ha b hb
    unfold entryRankLE
    rw [ht a ha]
    exact le_trans hTc (hgem b hb)
  · intro e he
    rcases List.mem_append.mp he with he | he
    · rw [ht e he]
    · exact le_trans hTc (hgem e he)

lemma entries_pairwise {segs : List Segment} {es : List BundleEntry}
    (h : buildEntries segs = .ok es) :
    es.Pairwise entryRankLE ∧ ∀ e ∈ es, typeRank e.resource.resourceType ≤ 8 := by
  obtain ⟨l1, l2, l3, l4, l5, l6, l7, l8, l9, h1, h2, h3, h4, h5, h6, h7, h8, h9, rfl⟩ :=
    buildEntries_ok h
  have t1 := fun e he => (mshBlock_facts h1 e he).1
  have t2 := fun e he => (pidBlock_facts h2 e he).1
  have t3 := fun e he => (encBlock_facts h3 e he).1
  have t4 := fun e he => (nk1Block_facts h4 e he).1
  have t5 := fun e he => (al1Block_facts h5 e he).1
  have t6 := fun e he => (dg1Block_facts h6 e he).1
  have t7 := fun e he => (pr1Block_facts h7 e he).1
  have t8 := fun e he => (in1Block_facts h8 e he).1
  have t9 := fun e he => (obxBlock_facts h9 e he).1
  have base : l9.Pairwise entryRankLE
      ∧ ∀ e ∈ l9, typeRank "Observation" ≤ typeRank e.resource.resourceType :=
    ⟨pairwise_rle_of_const t9, fun e he => le_of_eq (congrArg typeRank (t9 e he)).symm⟩
  have s8 := pairwise_step t8 (by decide) base.1 base.2
  have s7 := pairwise_step t7 (by decide) s8.1 s8.2
  have s6 := pairwise_step t6 (by decide) s7.1 s7.2
  have s5 := pairwise_step t5 (by decide) s6.1 s6.2
  have s4 := pairwise_step t4 (by decide) s5.1 s5.2
  have s3 := pairwise_step t3 (by decide) s4.1 s4.2
  have s2 := pairwise_step t2 (by decide) s3.1 s3.2
  have s1 := pairwise_step t1 (by decide) s2.1 s2.2
  refine ⟨s1.1, ?_⟩
  intro e he
  rcases List.mem_append.mp he with he | he
  · rw [t1 e he]
    decide
  rcases List.mem_append.mp he with he | he
  · rw [t2 e he]
    decide
  rcases List.mem_append.mp he with he | he
  · rw [t3 e he]
    decide
  rcases List.mem_append.mp he with he | he
  · rw [t4 e he]
    decide
  rcases List.mem_append.mp he with he | he
  · rw [t5 e he]
    decide
  rcases List.mem_append.mp he with he | he
  · rw [t6 e he]
    decide
  rcases List.mem_append.mp he with he | he
  · rw [t7 e he]
    decide
  rcases List.mem_append.mp he with he | he
  · rw [t8 e he]
    decide
  · rw [t9 e he]
    decide

lemma entries_facts {segs : List Segment} {es : List BundleEntry}
    (h : buildEntries segs = .ok es) :
    ∀ e ∈ es, e.fullUrl = "urn:uuid:" ++ e.resource.id
      ∧ (e.resource.resourceType ≠ "MessageHeader" → e.resource.resourceType ≠ "Patient" →
          e.resource.patientRef = some "Patient/patient-1") := by
  obtain ⟨l1, l2, l3, l4, l5, l6, l7, l8, l9, h1, h2, h3, h4, h5, h6, h7, h8, h9, rfl⟩ :=
    buildEntries_ok h
  intro e he
  rcases List.mem_append.mp he with he | he
  · obtain ⟨ht, hu, -⟩ := mshBlock_facts h1 e he
    exact ⟨hu, fun hne _ => absurd ht hne⟩
  rcases List.mem_append.mp he with he | he
  · obtain ⟨ht, hu, -⟩ := pidBlock_facts h2 e he
    exact ⟨hu, fun _ hne => absurd ht hne⟩
  rcases List.mem_append.mp he with he | he
  · obtain ⟨-, hu, hr⟩ := encBlock_facts h3 e he
    exact ⟨hu, fun _ _ => hr _ rfl⟩
  rcases List.mem_append.mp he with he | he
  · obtain ⟨-, hu, hr⟩ := nk1Block_facts h4 e he
    exact ⟨hu, fun _ _ => hr _ rfl⟩
  rcases List.mem_append.mp he with he | he
  · obtain ⟨-, hu, hr⟩ := al1Block_facts h5 e he
    exact ⟨hu, fun _ _ => hr _ rfl⟩
  rcases List.mem_append.mp he with he | he
  · obtain ⟨-, hu, hr⟩ := dg1Block_facts h6 e he
    exact ⟨hu, fun _ _ => hr _ rfl⟩
  rcases List.mem_append.mp he with he | he
  · obtain ⟨-, hu, hr⟩ := pr1Block_facts h7 e he
    exact ⟨hu, fun _ _ => hr _ rfl⟩
  rcases List.mem_append.mp he with he | he
  · obtain ⟨-, hu, hr⟩ := in1Block_facts h8 e he
    exact ⟨hu, fun _ _ => hr _ rfl⟩
  · obtain ⟨-, hu, hr⟩ := obxBlock_facts h9 e he
    exact ⟨hu, fun _ _ => hr _ rfl⟩

lemma entries_no_patient {segs : List Segment} {es : List BundleEntry}
    (h : buildEntries segs = .ok es)
    (hnp : ∀ s ∈ segs, s.segmentType ≠ "PID") :
    ∀ e ∈ es, e.resource.resourceType ≠ "Patient" := by
  obtain ⟨l1, l2, l3, l4, l5, l6, l7, l8, l9, h1, h2, h3, h4, h5, h6, h7, h8, h9, rfl⟩ :=
    buildEntries_ok h
  have hfind : segs.find? (fun s => s.segmentType == "PID") = none :=
    List.find?_eq_none.mpr fun s hs => by simp [hnp s hs]
  have hl2 : l2 = [] := by
    unfold pidBlock singleBlock at h2
    rw [hfind] at h2
    injection h2 with h2
    exact h2.symm
  subst hl2
  intro e he
  rcases List.mem_append.mp he with he | he
  · rw [(mshBlock_facts h1 e he).1]
    decide
  rcases List.mem_append.mp he with he | he
  · exact absurd he (by simp)
  rcases List.mem_append.mp he with he | he
  · rw [(encBlock_facts h3 e he).1]
    decide
  rcases List.mem_append.mp he with he | he
  · rw [(nk1Block_facts h4 e he).1]
    decide
  rcases List.mem_append.mp he with he | he
  · rw [(al1Block_facts h5 e he).1]
    decide
  rcases List.mem_append.mp he with he | he
  · rw [(dg1Block_facts h6 e he).1]
    decide
  rcases List.mem_append.mp he with he | he
  · rw [(pr1Block_facts h7 e he).1]
    decide
  rcases List.mem_append.mp he with he | he
  · rw [(in1Block_facts h8 e he).1]
    decide
  · rw [(obxBlock_facts h9 e he).1]
    decide

/-- C3: for every converted message, the bundle entries are grouped by
    resource type in the fixed emission order (their ranks are weakly
    increasing and every type is one of the nine), and within one
    resource type the entries are exactly the per-kind block — the
    mapper's output over the source-ordered occurrences of that segment
    kind — regardless of where those segments sit in the message. -/
theorem bundle_entry_type_order (parse : String → List Segment) (now msg : String) (b : Bundle)
    (h : convertHL7ToFHIR parse now msg = .ok b) :
    b.entry.Pairwise entryRankLE
    ∧ (∀ e ∈ b.entry, typeRank e.resource.resourceType ≤ 8)
    ∧ b.entry.filter (fun e => e.resource.resourceType == "MessageHeader")
        = blockOrNil (mshBlock (parse msg))
    ∧ b.entry.filter (fun e => e.resource.resourceType == "Patient")
        = blockOrNil (pidBlock (parse msg))
    ∧ b.entry.filter (fun e => e.resource.resourceType == "Encounter")
        = blockOrNil (encBlock (parse msg))
    ∧ b.entry.filter (fun e => e.resource.resourceType == "RelatedPerson")
        = blockOrNil (nk1Block (parse msg))
    ∧ b.entry.filter (fun e => e.resource.resourceType == "AllergyIntolerance")
        = blockOrNil (al1Block (parse msg))
    ∧ b.entry.filter (fun e => e.resource.resourceType == "Condition")
        = blockOrNil (dg1Block (parse msg))
    ∧ b.entry.filter (fun e => e.resource.resourceType == "Procedure")
        = blockOrNil (pr1Block (parse msg))
    ∧ b.entry.filter (fun e => e.resource.resourceType == "Coverage")
        = blockOrNil (in1Block (parse msg))
    ∧ b.entry.filter (fun e => e.resource.resourceType == "Observation")
        = blockOrNil (obxBlock (parse msg)) := by
  obtain ⟨hbe, -, -, -, -⟩ := convert_ok_entries h
  have hpw := entries_pairwise hbe
  have hf := entries_filter_all hbe
  exact ⟨hpw.1, hpw.2, hf.1, hf.2.1, hf.2.2.1, hf.2.2.2.1, hf.2.2.2.2.1, hf.2.2.2.2.2.1,
    hf.2.2.2.2.2.2.1, hf.2.2.2.2.2.2.2.1, hf.2.2.2.2.2.2.2.2⟩

/-- C5: for every converted message, the number of Encounter entries in
    the bundle equals the number of PV1 segments whose parsed body is
    non-null, and their ids are `encounter-<n>` with `n` the 1-based
    position of the PV1 occurrence in segment-discovery order. -/
theorem encounter_count_and_ids (parse : String → List Segment) (now msg : String) (b : Bundle)
    (h : convertHL7ToFHIR parse now msg = .ok b) :
    (b.entry.filter (fun e => e.resource.resourceType == "Encounter")).length
      = ((parse msg).filter (fun s => s.segmentType == "PV1")).countP (fun s => s.parsed.isSome)
    ∧ (b.entry.filter (fun e => e.resource.resourceType == "Encounter")).map
          (fun e => e.resource.id)
      = idsFrom (fun i => "encounter-" ++ toString (i + 1))
          ((parse msg).filter (fun s => s.segmentType == "PV1")) 0 := by
  obtain ⟨hbe, -, -, -, -⟩ := convert_ok_entries h
  have hf := (entries_filter_all hbe).2.2.1
  obtain ⟨l1, l2, l3, l4, l5, l6, l7, l8, l9, h1, h2, h3, h4, h5, h6, h7, h8, h9, hes⟩ :=
    buildEntries_ok hbe
  have hl3 : blockOrNil (encBlock (parse msg)) = l3 := by
    rw [h3]
    rfl
  have h3x : convSegs encMapper ((parse msg).filter (fun s => s.segmentType == "PV1")) 0
      = .ok l3 := h3
  have hfid : ∀ i p r, encMapper i p = Except.ok r →
      r.id = "encounter-" ++ toString (i + 1) :=
    fun i p r hc => (encMapper_ok hc).2.2
  rw [hf, hl3]
  constructor
  · exact convSegs_ok_length _ _ _ h3x
  · exact convSegs_ok_ids hfid _ _ _ h3x

/-- C9: for every converted message and every entry of the returned
    bundle, the entry's `fullUrl` is the string `urn:uuid:` followed by
    exactly the contained resource's `id`, for all nine resource kinds. -/
theorem entry_fullurl_matches_id (parse : String → List Segment) (now msg : String) (b : Bundle)
    (h : convertHL7ToFHIR parse now msg = .ok b) :
    ∀ e ∈ b.entry, e.fullUrl = "urn:uuid:" ++ e.resource.id := by
  obtain ⟨hbe, -, -, -, -⟩ := convert_ok_entries h
  intro e he
  exact (entries_facts hbe e he).1

/-- C10: every emitted Encounter, RelatedPerson, AllergyIntolerance,
    Condition, Procedure, Coverage and Observation carries the constant
    patient reference `Patient/patient-1`; and when the message holds no
    PID segment the bundle holds no Patient resource (so those references
    dangle). -/
theorem patient_reference_constant (parse : String → List Segment) (now msg : String) (b : Bundle)
    (h : convertHL7ToFHIR parse now msg = .ok b) :
    (∀ e ∈ b.entry,
        e.resource.resourceType ∈ (["Encounter", "RelatedPerson", "AllergyIntolerance",
          "Condition", "Procedure", "Coverage", "Observation"] : List String) →
        e.resource.patientRef = some "Patient/patient-1")
    ∧ ((∀ s ∈ parse msg, s.segmentType ≠ "PID") →
        ∀ e ∈ b.entry, e.resource.resourceType ≠ "Patient") := by
  obtain ⟨hbe, -, -, -, -⟩ := convert_ok_entries h
  constructor
  · intro e he hmem
    refine (entries_facts hbe e he).2 ?_ ?_
    · intro hc
      rw [hc] at hmem
      simp at hmem
    · intro hc
      rw [hc] at hmem
      simp at hmem
  · intro hnp
    exact entries_no_patient hbe hnp

/-- C2 counterexample: the converter can throw on a non-empty,
    non-whitespace message — here the parsed message holds a PV1 whose
    discharge field 45 extracts to a component array, so the date
    conversion calls `.trim()` on an array and raises a TypeError — which
    refutes the claim that an error occurs only for empty or
    whitespace-only input. -/
theorem convert_error_counterexample :
    convertHL7ToFHIR
        (fun _ => [{ segmentType := "PV1",
                     parsed := some (fun n =>
                       if n = 45 then JVal.arr [JVal.arr [JVal.arr [JVal.str "x"]]]
                       else JVal.nul) }])
        "t" "MSH"
      = .error .typeError
    ∧ jsTrim "MSH" ≠ "" := by
  exact ⟨rfl, by decide⟩

/-- C2 amended: `convertHL7ToFHIR` raises the empty-message Error exactly
    when its argument is empty or whitespace-only — before the parser or
    the bundle builder run, so no partial bundle exists; on non-empty
    input it returns a whole bundle unless a segment mapper raises a
    TypeError on a pathological parsed field shape, in which case that
    TypeError propagates (and again no partial bundle is observable). -/
theorem convert_error_amended (parse : String → List Segment) (now msg : String) :
    (convertHL7ToFHIR parse now msg = .error .inputError ↔ jsTrim msg = "")
    ∧ (∀ b, convertHL7ToFHIR parse now msg = .ok b →
        jsTrim msg ≠ "" ∧ buildEntries (parse msg) = .ok b.entry)
    ∧ (convertHL7ToFHIR parse now msg = .error .typeError ↔
        (jsTrim msg ≠ "" ∧ buildEntries (parse msg) = .error ())) := by
  unfold convertHL7ToFHIR
  by_cases ht : jsTrim msg = ""
  · rw [if_pos ht]
    refine ⟨⟨fun _ => ht, fun _ => rfl⟩, ?_, ?_⟩
    · intro b hb
      exact absurd hb (by simp)
    · constructor
      · intro hc
        injection hc with hc
        exact absurd hc (by decide)
      · rintro ⟨hne, -⟩
        exact absurd ht hne
  · rw [if_neg ht]
    cases hb : buildEntries (parse msg) with
    | ok es =>
      refine ⟨⟨fun hc => Except.noConfusion hc, fun hc => absurd hc ht⟩, ?_, ?_⟩
      · intro b hbb
        have hbb2 : (Except.ok ⟨"Bundle", "collection", now, es⟩ : Except JsError Bundle)
            = Except.ok b := hbb
        injection hbb2 with hbb2
        subst hbb2
        exact ⟨ht, rfl⟩
      · constructor
        · intro hc
          exact Except.noConfusion hc
        · rintro ⟨-, habs⟩
          exact Except.noConfusion habs
    | error e =>
      cases e
      refine ⟨⟨fun hc => ?_, fun hc => absurd hc ht⟩, ?_, ?_⟩
      · injection hc with hc
        exact absurd hc (by decide)
      · intro b hbb
        exact Except.noConfusion hbb
      · exact ⟨fun _ => ⟨ht, rfl⟩, fun _ => rfl⟩

/-- C8: apart from the `timestamp` (the sole clock read), the returned
    bundle is a deterministic function of the parsed input alone: two
    invocations on the same message at different times agree error-wise
    and on every bundle field except `timestamp`. -/
theorem convert_deterministic_mod_timestamp (parse : String → List Segment)
    (msg nowa nowb : String) :
    (∀ er, convertHL7ToFHIR parse nowa msg = .error er
        ↔ convertHL7ToFHIR parse nowb msg = .error er)
    ∧ (∀ ba bb, convertHL7ToFHIR parse nowa msg = .ok ba →
        convertHL7ToFHIR parse nowb msg = .ok bb →
        ba.resourceType = bb.resourceType ∧ ba.bundleType = bb.bundleType
        ∧ ba.entry = bb.entry ∧ ba.timestamp = nowa ∧ bb.timestamp = nowb) := by
  unfold convertHL7ToFHIR
  by_cases ht : jsTrim msg = ""
  · rw [if_pos ht, if_pos ht]
    exact ⟨fun er => Iff.rfl, fun ba bb hba => absurd hba (by simp)⟩
  · rw [if_neg ht, if_neg ht]
    cases hb : buildEntries (parse msg) with
    | error e =>
      exact ⟨fun er => Iff.rfl, fun ba bb hba => absurd hba (by simp)⟩
    | ok es =>
      refine ⟨fun er => ⟨fun hc => absurd hc (by simp), fun hc => absurd hc (by simp)⟩, ?_⟩
      intro ba bb hba hbb
      have hba2 : (Except.ok ⟨"Bundle", "collection", nowa, es⟩ : Except JsError Bundle)
          = Except.ok ba := hba
      have hbb2 : (Except.ok ⟨"Bundle", "collection", nowb, es⟩ : Except JsError Bundle)
          = Except.ok bb := hbb
      injection hba2 with hba2
      injection hbb2 with hbb2
      subst hba2
      subst hbb2
      exact ⟨rfl, rfl, rfl, rfl, rfl⟩

/-- Witness fixture: a segment body with every field absent. -/
def allAbsentSeg : ParsedSeg := fun _ => JVal.nul

/-- Witness fixture: a message with one MSH and one PV1 segment, both
    parsed with every field absent. -/
def witnessSegs : List Segment :=
  [{ segmentType := "MSH", parsed := some allAbsentSeg },
   { segmentType := "PV1", parsed := some allAbsentSeg }]

/-- Witness fixture: a parser delivering `witnessSegs` for any input. -/
def witnessParse : String → List Segment := fun _ => witnessSegs

/-- Witness fixture: the MessageHeader entry the converter produces from
    `witnessSegs`. -/
def witnessEntryMsh : BundleEntry :=
  { fullUrl := "urn:uuid:messageheader-1",
    resource := { resourceType := "MessageHeader", id := "messageheader-1" } }

/-- Witness fixture: the Encounter entry the converter produces from
    `witnessSegs`. -/
def witnessEntryEnc : BundleEntry :=
  { fullUrl := "urn:uuid:encounter-1",
    resource := { resourceType := "Encounter", id := "encounter-1",
                  patientRef := some "Patient/patient-1",
                  status := some "in-progress" } }

/-- Witness fixture: the bundle the converter produces from
    `witnessSegs` at clock reading `ts`. -/
def witnessBundle (ts : String) : Bundle :=
  { resourceType := "Bundle", bundleType := "collection", timestamp := ts,
    entry := [witnessEntryMsh, witnessEntryEnc] }

/-- Witness for `bundle_entry_type_order` at a concrete two-segment
    message. -/
theorem bundle_entry_type_order_witness :
    convertHL7ToFHIR witnessParse "t" "MSH" = .ok (witnessBundle "t")
    ∧ (witnessBundle "t").entry.Pairwise entryRankLE :=
  ⟨rfl, (bundle_entry_type_order witnessParse "t" "MSH" (witnessBundle "t") rfl).1⟩

/-- Witness for `encounter_count_and_ids` at a concrete message with one
    parsed PV1. -/
theorem encounter_count_and_ids_witness :
    convertHL7ToFHIR witnessParse "t" "MSH" = .ok (witnessBundle "t")
    ∧ ((witnessBundle "t").entry.filter
        (fun e => e.resource.resourceType == "Encounter")).length
      = ((witnessParse "MSH").filter (fun s => s.segmentType == "PV1")).countP
          (fun s => s.parsed.isSome) :=
  ⟨rfl, (encounter_count_and_ids witnessParse "t" "MSH" (witnessBundle "t") rfl).1⟩

/-- Witness for `entry_fullurl_matches_id` at the MessageHeader entry of
    the concrete bundle. -/
theorem entry_fullurl_matches_id_witness :
    convertHL7ToFHIR witnessParse "t" "MSH" = .ok (witnessBundle "t")
    ∧ witnessEntryMsh.fullUrl = "urn:uuid:" ++ witnessEntryMsh.resource.id :=
  ⟨rfl, entry_fullurl_matches_id witnessParse "t" "MSH" (witnessBundle "t") rfl
    _ (List.mem_cons_self _ _)⟩

/-- Witness for `patient_reference_constant` at the Encounter entry of
    the concrete bundle (whose message carries no PID segment). -/
theorem patient_reference_constant_witness :
    convertHL7ToFHIR witnessParse "t" "MSH" = .ok (witnessBundle "t")
    ∧ witnessEntryEnc.resource.patientRef = some "Patient/patient-1" :=
  ⟨rfl, (patient_reference_constant witnessParse "t" "MSH" (witnessBundle "t") rfl).1
    _ (List.mem_cons_of_mem _ (List.mem_cons_self _ _)) (by decide)⟩

/-- Witness for `convert_error_amended`: the empty message raises the
    empty-input Error. -/
theorem convert_error_amended_witness :
    jsTrim "" = "" ∧ convertHL7ToFHIR witnessParse "t" "" = .error .inputError :=
  ⟨rfl, (convert_error_amended witnessParse "t" "").1.mpr rfl⟩

/-- Witness for `convert_deterministic_mod_timestamp`: two conversions of
    the same concrete message at different clock readings produce equal
    entry lists. -/
theorem convert_deterministic_mod_timestamp_witness :
    convertHL7ToFHIR witnessParse "t1" "MSH" = .ok (witnessBundle "t1")
    ∧ convertHL7ToFHIR witnessParse "t2" "MSH" = .ok (witnessBundle "t2")
    ∧ (witnessBundle "t1").entry = (witnessBundle "t2").entry :=
  ⟨rfl, rfl,
    ((convert_deterministic_mod_timestamp witnessParse "MSH" "t1" "t2").2
      (witnessBundle "t1") (witnessBundle "t2") rfl rfl).2.2.1⟩
